import Mathlib

/-!
Shallow embedding of `attendance_sqlite_app.py` (HexcentAttendTracker):
the SQLite schema created by `init_db`, the CRUD layer (`add_college`,
`add_department`, `add_course`, `add_student`), the attendance upsert
(`mark_attendance_for_date`), the flat query (`get_attendance_df`) and the
weekly-summary aggregation of the Reports page, together with theorems about
the specified properties.

Machine integers are modelled as `Nat`/`Int`; SQL `TEXT` as `String`; SQL
`NULL`-able text as `Option String`.  Each repository function opens its own
connection via `get_conn`, which does NOT execute `PRAGMA foreign_keys = ON`;
SQLite disables foreign-key enforcement (and hence `ON DELETE CASCADE`
actions) per connection by default, so the embedding carries that connection
setting explicitly as `foreign_keys_enabled`.
-/

namespace AttendTracker

/-- A row of the `colleges` table: `id INTEGER PRIMARY KEY AUTOINCREMENT`,
`name TEXT UNIQUE NOT NULL`. -/
structure College where
  id : Nat
  name : String
deriving DecidableEq, Repr

/-- A row of the `departments` table: `id`, `college_id INTEGER NOT NULL`,
`name TEXT NOT NULL`, `UNIQUE(college_id, name)`,
`FOREIGN KEY(college_id) REFERENCES colleges(id) ON DELETE CASCADE`. -/
structure Department where
  id : Nat
  college_id : Nat
  name : String
deriving DecidableEq, Repr

/-- A row of the `courses` table: `id`, `department_id INTEGER NOT NULL`,
`name TEXT NOT NULL`, `UNIQUE(department_id, name)`,
`FOREIGN KEY(department_id) REFERENCES departments(id) ON DELETE CASCADE`. -/
structure Course where
  id : Nat
  department_id : Nat
  name : String
deriving DecidableEq, Repr

/-- A row of the `students` table: `id`, `course_id INTEGER NOT NULL`,
`roll TEXT` (nullable), `name TEXT NOT NULL`, `UNIQUE(course_id, roll)`,
`FOREIGN KEY(course_id) REFERENCES courses(id) ON DELETE CASCADE`. -/
structure Student where
  id : Nat
  course_id : Nat
  roll : Option String
  name : String
deriving DecidableEq, Repr

/-- A row of the `attendance` table: `id`, `student_id INTEGER NOT NULL`,
`date TEXT NOT NULL`, `status TEXT NOT NULL`, `timestamp TEXT`,
`UNIQUE(student_id, date)`,
`FOREIGN KEY(student_id) REFERENCES students(id) ON DELETE CASCADE`. -/
structure AttendanceMark where
  id : Nat
  student_id : Nat
  date : String
  status : String
  timestamp : String
deriving DecidableEq, Repr

/-- The SQLite database state: the five tables created by `init_db`, plus the
`AUTOINCREMENT` counter of each table. -/
structure DB where
  colleges : List College
  departments : List Department
  courses : List Course
  students : List Student
  attendance : List AttendanceMark
  next_college_id : Nat
  next_department_id : Nat
  next_course_id : Nat
  next_student_id : Nat
  next_attendance_id : Nat
deriving DecidableEq, Repr

/-- The freshly initialised database produced by `init_db` on a new file:
all five tables empty, autoincrement counters at 1. -/
def emptyDB : DB :=
  { colleges := [], departments := [], courses := [], students := []
    attendance := []
    next_college_id := 1, next_department_id := 1, next_course_id := 1
    next_student_id := 1, next_attendance_id := 1 }

/-- Python `str.strip()` with no argument: remove whitespace from both ends
of the string (whitespace per `Char.isWhitespace`). -/
def pyStrip (s : String) : String :=
  ⟨((s.data.dropWhile Char.isWhitespace).reverse.dropWhile
      Char.isWhitespace).reverse⟩

/-- `get_conn` runs `sqlite3.connect(DB_PATH, check_same_thread=False)` and
sets a row factory; it never executes `PRAGMA foreign_keys = ON`, and SQLite
leaves foreign-key enforcement OFF on every new connection by default, so the
`FOREIGN KEY ... ON DELETE CASCADE` clauses of the schema are not enforced on
any connection this program opens. -/
def foreign_keys_enabled : Bool := false

/-- `add_college(name)`: `INSERT INTO colleges(name) VALUES (name.strip())`;
an `sqlite3.IntegrityError` (here: the `UNIQUE` constraint on `name`) is
caught and the function returns `False` with the connection closed without a
commit, leaving the store unchanged; otherwise the row is committed and the
function returns `True`. -/
def add_college (db : DB) (name : String) : DB × Bool :=
  if db.colleges.any (fun c => c.name == pyStrip name) then
    (db, false)
  else
    ({ db with
        colleges := db.colleges ++ [⟨db.next_college_id, pyStrip name⟩]
        next_college_id := db.next_college_id + 1 }, true)

/-- `add_department(college_id, name)`:
`INSERT INTO departments(college_id, name) VALUES (college_id, name.strip())`.
An `IntegrityError` arises from the `UNIQUE(college_id, name)` constraint,
or — only when the connection enforces foreign keys — from a missing parent
college; it is caught and `False` returned with the store unchanged. -/
def add_department (db : DB) (college_id : Nat) (name : String) : DB × Bool :=
  if (foreign_keys_enabled && !(db.colleges.any (fun c => c.id == college_id)))
      || db.departments.any
          (fun d => d.college_id == college_id && d.name == pyStrip name) then
    (db, false)
  else
    ({ db with
        departments :=
          db.departments ++ [⟨db.next_department_id, college_id, pyStrip name⟩]
        next_department_id := db.next_department_id + 1 }, true)

/-- `add_course(department_id, name)`:
`INSERT INTO courses(department_id, name) VALUES (department_id, name.strip())`
with the same catch-and-return-`False` handling of `IntegrityError`. -/
def add_course (db : DB) (department_id : Nat) (name : String) : DB × Bool :=
  if (foreign_keys_enabled
        && !(db.departments.any (fun d => d.id == department_id)))
      || db.courses.any
          (fun c => c.department_id == department_id && c.name == pyStrip name) then
    (db, false)
  else
    ({ db with
        courses := db.courses ++ [⟨db.next_course_id, department_id, pyStrip name⟩]
        next_course_id := db.next_course_id + 1 }, true)

/-- The roll value stored by `add_student`: the Python expression
`roll.strip() if roll else None` maps both `None` and the empty string
(falsy) to SQL `NULL`, and any other string to its stripped form. -/
def storedRoll (roll : Option String) : Option String :=
  match roll with
  | none => none
  | some r => if r = "" then none else some (pyStrip r)

/-- `add_student(course_id, name, roll=None)`:
`INSERT INTO students(course_id, name, roll)
 VALUES (course_id, name.strip(), roll.strip() if roll else None)`.
The `UNIQUE(course_id, roll)` constraint is violated only when the stored
roll is non-`NULL` and already present in the course (SQLite treats distinct
`NULL`s as unequal for `UNIQUE`); with foreign keys off a missing parent
course raises nothing.  `IntegrityError` is caught and `False` returned. -/
def add_student (db : DB) (course_id : Nat) (name : String)
    (roll : Option String) : DB × Bool :=
  if (foreign_keys_enabled && !(db.courses.any (fun c => c.id == course_id)))
      || (match storedRoll roll with
          | none => false
          | some v => db.students.any
              (fun s => s.course_id == course_id && s.roll == some v)) then
    (db, false)
  else
    ({ db with
        students := db.students
          ++ [⟨db.next_student_id, course_id, storedRoll roll, pyStrip name⟩]
        next_student_id := db.next_student_id + 1 }, true)

/-- `DELETE FROM colleges WHERE id = college_id` executed against this
schema.  When the connection enforces foreign keys, the schema's
`ON DELETE CASCADE` clauses remove every descendant department, course,
student and attendance row; on a default connection (foreign keys off, as
`get_conn` produces) SQLite ignores the cascade actions and deletes only the
college row itself. -/
def delete_college (db : DB) (college_id : Nat) : DB :=
  if foreign_keys_enabled then
    let deadDepts := (db.departments.filter
      (fun d => d.college_id == college_id)).map (fun d => d.id)
    let deadCourses := (db.courses.filter
      (fun c => deadDepts.contains c.department_id)).map (fun c => c.id)
    let deadStudents := (db.students.filter
      (fun s => deadCourses.contains s.course_id)).map (fun s => s.id)
    { db with
        colleges := db.colleges.filter (fun c => !(c.id == college_id))
        departments := db.departments.filter
          (fun d => !(d.college_id == college_id))
        courses := db.courses.filter
          (fun c => !(deadDepts.contains c.department_id))
        students := db.students.filter
          (fun s => !(deadCourses.contains s.course_id))
        attendance := db.attendance.filter
          (fun a => !(deadStudents.contains a.student_id)) }
  else
    { db with colleges := db.colleges.filter (fun c => !(c.id == college_id)) }

/-- The single statement executed for one `(sid, status)` entry of the batch
in `mark_attendance_for_date`:
`INSERT INTO attendance(student_id, date, status, timestamp) VALUES (?,?,?,?)
 ON CONFLICT(student_id, date) DO UPDATE
 SET status=excluded.status, timestamp=excluded.timestamp`. -/
def upsertMark (db : DB) (sid : Nat) (date status ts : String) : DB :=
  if db.attendance.any (fun a => a.student_id == sid && a.date == date) then
    { db with
        attendance := db.attendance.map (fun a =>
          if a.student_id == sid && a.date == date then
            { a with status := status, timestamp := ts }
          else a) }
  else
    { db with
        attendance := db.attendance
          ++ [⟨db.next_attendance_id, sid, date, status, ts⟩]
        next_attendance_id := db.next_attendance_id + 1 }

/-- `mark_attendance_for_date(student_status_map, date_str)`: computes
`ts = datetime.now().isoformat(timespec='seconds')` once before the loop
(here the parameter `ts`), then runs the upsert statement for every entry of
the dict in iteration order, commits, and returns `True`.  The Python dict is
modelled as an association list in insertion order. -/
def mark_attendance_for_date (db : DB) (student_status_map : List (Nat × String))
    (date_str ts : String) : DB × Bool :=
  (student_status_map.foldl (fun d p => upsertMark d p.1 date_str p.2 ts) db,
   true)

/-- The attendance rows stored for one `(student_id, date)` key. -/
def attFor (db : DB) (sid : Nat) (date : String) : List AttendanceMark :=
  db.attendance.filter (fun a => a.student_id == sid && a.date == date)

/-- One row of the denormalised result of the SELECT in `get_attendance_df`:
`a.id, s.id, s.name, s.roll, c.id, c.name, d.id, d.name, co.id, co.name,
a.date, a.status, a.timestamp`. -/
structure FlatRow where
  att_id : Nat
  student_id : Nat
  student_name : String
  roll : Option String
  course_id : Nat
  course : String
  department_id : Nat
  department : String
  college_id : Nat
  college : String
  date : String
  status : String
  timestamp : String
deriving DecidableEq, Repr

/-- The four inner joins of `get_attendance_df`
(`attendance ⋈ students ⋈ courses ⋈ departments ⋈ colleges`): each
attendance row is joined with its ancestor chain; since each join key is the
parent table's `PRIMARY KEY`, at most one partner exists, and a row whose
chain is broken is dropped by the inner join. -/
def joinAll (db : DB) : List FlatRow :=
  db.attendance.filterMap (fun a =>
    (db.students.find? (fun s => s.id == a.student_id)).bind (fun s =>
    (db.courses.find? (fun c => c.id == s.course_id)).bind (fun c =>
    (db.departments.find? (fun d => d.id == c.department_id)).bind (fun d =>
    (db.colleges.find? (fun co => co.id == d.college_id)).map (fun co =>
      { att_id := a.id, student_id := s.id, student_name := s.name
        roll := s.roll, course_id := c.id, course := c.name
        department_id := d.id, department := d.name
        college_id := co.id, college := co.name
        date := a.date, status := a.status, timestamp := a.timestamp })))))

/-- The `ORDER BY a.date DESC, co.name, d.name, c.name, s.name` comparator of
the query in `get_attendance_df`. -/
def rowLE (a b : FlatRow) : Bool :=
  if a.date ≠ b.date then decide (b.date < a.date)
  else if a.college ≠ b.college then decide (a.college < b.college)
  else if a.department ≠ b.department then decide (a.department < b.department)
  else if a.course ≠ b.course then decide (a.course < b.course)
  else decide (a.student_name ≤ b.student_name)

/-- `get_attendance_df(filter_clause, params)`: the caller-supplied WHERE
clause applied to the join.  The clause is spliced into the SQL text; its
evaluation either fails (malformed SQL — `pd.read_sql_query` raises) or
denotes a row predicate, so it is modelled as
`Except String (FlatRow → Bool)`.  The whole read is wrapped in
`try/except Exception`, and any failure yields an empty DataFrame. -/
def get_attendance_df (db : DB) (filt : Except String (FlatRow → Bool)) :
    List FlatRow :=
  match filt with
  | Except.error _ => []
  | Except.ok p => ((joinAll db).filter p).mergeSort rowLE

/-- One row of the `df_week` input to the weekly summary (only the columns
the aggregation reads). -/
structure WeekRow where
  student_name : String
  roll : Option String
  status : String
deriving DecidableEq, Repr

/-- One row of the `merged` WeeklySummary sheet:
`student_name, roll, PresentCount, TotalDays, Attendance%`. -/
structure SummaryRow where
  student_name : String
  roll : Option String
  presentCount : Nat
  totalDays : Int
  attendancePercent : ℚ
deriving DecidableEq, Repr

/-- The `(student_name, roll)` group key used by `groupby`,
`drop_duplicates` and `merge` in the weekly summary. -/
def wkey (r : WeekRow) : String × Option String := (r.student_name, r.roll)

/-- Helper for `dedupFirst`: keep the elements not yet seen, in order,
remembering the seen ones in the accumulator. -/
def dedupSeen (seen : List (String × Option String)) :
    List (String × Option String) → List (String × Option String)
  | [] => []
  | a :: as =>
      if a ∈ seen then dedupSeen seen as
      else a :: dedupSeen (a :: seen) as

/-- First-occurrence deduplication, the semantics of pandas
`drop_duplicates()` (and the key set of `groupby`). -/
def dedupFirst (l : List (String × Option String)) :
    List (String × Option String) :=
  dedupSeen [] l

/-- `df_week[df_week['status']=="Present"].groupby(['student_name','roll']).size()`:
pandas `groupby` drops any row whose group key contains a missing value, so
rows whose `roll` is `NULL` contribute to no group.  The result maps each
remaining distinct key to the number of its Present rows. -/
def presences (rows : List WeekRow) : List ((String × Option String) × Nat) :=
  let pres := rows.filter (fun r => r.status == "Present" && r.roll.isSome)
  (dedupFirst (pres.map wkey)).map
    (fun k => (k, (pres.filter (fun r => wkey r == k)).length))

/-- `df_week[['student_name','roll']].drop_duplicates()`. -/
def students_list (rows : List WeekRow) : List (String × Option String) :=
  dedupFirst (rows.map wkey)

/-- Round a rational to the nearest integer, ties to even — the rounding used
by `round`/`numpy.round`/pandas `.round`. -/
def roundHalfEven (q : ℚ) : ℤ :=
  let f := ⌊q⌋
  let r := q - f
  if r < 1/2 then f
  else if 1/2 < r then f + 1
  else if f % 2 = 0 then f else f + 1

/-- `.round(2)`: round to two decimal places, ties to even. -/
def round2 (q : ℚ) : ℚ := (roundHalfEven (q * 100) : ℚ) / 100

/-- The weekly-summary aggregation of the Reports page:
`presences` grouped as above; `total_days = (end_date - start_date).days + 1`;
`students_list` = distinct `(student_name, roll)` of the raw rows;
`merged` = left merge of `students_list` with `presences` on the key,
`PresentCount` filled with 0 where unmatched and cast to int;
`TotalDays` the single fixed denominator; and
`Attendance% = (PresentCount / TotalDays * 100).round(2)`.
Dates are modelled as day ordinals (`Int`). -/
def weekly_summary (rows : List WeekRow) (start_date end_date : Int) :
    List SummaryRow :=
  let total_days : Int := end_date - start_date + 1
  (students_list rows).map (fun k =>
    let pc : Nat := ((presences rows).lookup k).getD 0
    { student_name := k.1, roll := k.2, presentCount := pc
      totalDays := total_days
      attendancePercent := round2 ((pc : ℚ) / (total_days : ℚ) * 100) })

/-- The number of raw rows in range for key `k` whose status is Present —
the quantity the specification says `presentCount` equals. -/
def presentCountFor (rows : List WeekRow) (k : String × Option String) : Nat :=
  (rows.filter (fun r => r.status == "Present" && wkey r == k)).length

/-- Raw rows of a 7-day inclusive range (day ordinals 1..7) for one student
with roll "1", Present on 3 of the 7 days. -/
def week7rows : List WeekRow :=
  [⟨"A", some "1", "Present"⟩, ⟨"A", some "1", "Absent"⟩,
   ⟨"A", some "1", "Present"⟩, ⟨"A", some "1", "Absent"⟩,
   ⟨"A", some "1", "Present"⟩, ⟨"A", some "1", "Absent"⟩,
   ⟨"A", some "1", "Absent"⟩]

/-- A small populated store: one college, department, course, and one student
with roll "7". -/
def sampleDB : DB :=
  { colleges := [⟨1, "Uni"⟩], departments := [⟨1, 1, "CS"⟩]
    courses := [⟨1, 1, "Algo"⟩], students := [⟨1, 1, some "7", "Sam"⟩]
    attendance := []
    next_college_id := 2, next_department_id := 2, next_course_id := 2
    next_student_id := 2, next_attendance_id := 1 }

/-- A store with a full ancestor chain and one attendance mark, used to
observe what a college deletion leaves behind. -/
def cascadeDB : DB :=
  { colleges := [⟨1, "Uni"⟩], departments := [⟨1, 1, "CS"⟩]
    courses := [⟨1, 1, "Algo"⟩], students := [⟨1, 1, none, "Sam"⟩]
    attendance := [⟨1, 1, "2024-01-01", "Present", "2024-01-01T08:00:00"⟩]
    next_college_id := 2, next_department_id := 2, next_course_id := 2
    next_student_id := 2, next_attendance_id := 2 }

/-- A store with three students A, B, C (ids 1, 2, 3) in course 1 and no
attendance rows. -/
def abcDB : DB :=
  { emptyDB with
      students := [⟨1, 1, none, "A"⟩, ⟨2, 1, none, "B"⟩, ⟨3, 1, none, "C"⟩]
      next_student_id := 4 }

/-! ### Lemmas about the attendance upsert -/

/-- If the store holds at most one row for the key (as the
`UNIQUE(student_id, date)` constraint guarantees), the upsert statement
leaves exactly one row for the key, carrying the supplied status and
timestamp. -/
theorem upsertMark_attFor (db : DB) (sid : Nat) (d st ts : String)
    (h : (attFor db sid d).length ≤ 1) :
    ∃ i, attFor (upsertMark db sid d st ts) sid d
      = [{ id := i, student_id := sid, date := d, status := st
           timestamp := ts }] := by
  by_cases hex :
      db.attendance.any (fun a => a.student_id == sid && a.date == d) = true
  · -- conflict: the DO UPDATE branch rewrites the existing row
    have hne : attFor db sid d ≠ [] := by
      rcases List.any_eq_true.mp hex with ⟨a, ha, hpa⟩
      intro hnil
      have hmem : a ∈ attFor db sid d := List.mem_filter.mpr ⟨ha, hpa⟩
      rw [hnil] at hmem
      exact List.not_mem_nil a hmem
    obtain ⟨a0, ha0⟩ : ∃ a0, attFor db sid d = [a0] := by
      cases hl : attFor db sid d with
      | nil => exact absurd hl hne
      | cons a0 tl =>
        cases tl with
        | nil => exact ⟨a0, rfl⟩
        | cons a1 tl2 =>
          rw [hl] at h
          simp at h
    have hfilter : attFor (upsertMark db sid d st ts) sid d
        = (attFor db sid d).map (fun a =>
            if a.student_id == sid && a.date == d then
              { a with status := st, timestamp := ts }
            else a) := by
      simp only [upsertMark, hex, if_true, attFor]
      rw [List.filter_map]
      congr 1
      apply List.filter_congr
      intro a _
      by_cases hpa : (a.student_id == sid && a.date == d) = true
      · simp [Function.comp, hpa]
      · simp [Function.comp, hpa]
    refine ⟨a0.id, ?_⟩
    have hpa0 : (a0.student_id == sid && a0.date == d) = true := by
      have hmem : a0 ∈ attFor db sid d := by
        rw [ha0]; exact List.mem_cons_self a0 []
      exact (List.mem_filter.mp hmem).2
    have h12 : a0.student_id = sid ∧ a0.date = d := by simpa using hpa0
    obtain ⟨h1, h2⟩ := h12
    rw [hfilter, ha0]
    simp only [List.map_cons, List.map_nil, hpa0, if_true]
    obtain ⟨i0, sid0, d0, st0, ts0⟩ := a0
    simp_all
  · -- no conflict: a fresh row is appended
    have hb : (db.attendance.any fun a => a.student_id == sid && a.date == d)
        = false := by
      simpa using hex
    have hnil : db.attendance.filter
        (fun a => a.student_id == sid && a.date == d) = [] := by
      rw [List.filter_eq_nil_iff]
      intro a ha
      have := List.any_eq_false.mp hb a ha
      simpa using this
    refine ⟨db.next_attendance_id, ?_⟩
    simp only [upsertMark, hb, Bool.false_eq_true, if_false, attFor,
      List.filter_append, hnil]
    simp

/-- The upsert for one student never creates or modifies a row of a
different student. -/
theorem upsertMark_attFor_other (db : DB) (osid : Nat) (d0 st ts : String)
    (sid : Nat) (d : String) (h : sid ≠ osid) :
    attFor (upsertMark db osid d0 st ts) sid d = attFor db sid d := by
  by_cases hex :
      (db.attendance.any fun a => a.student_id == osid && a.date == d0) = true
  · simp only [upsertMark, hex, if_true, attFor]
    rw [List.filter_map]
    have hcong : List.filter
        ((fun a : AttendanceMark => a.student_id == sid && a.date == d) ∘
          fun a => if (a.student_id == osid && a.date == d0) = true then
            { a with status := st, timestamp := ts } else a) db.attendance
        = List.filter (fun a => a.student_id == sid && a.date == d)
            db.attendance := by
      apply List.filter_congr
      intro a _
      by_cases hpa : (a.student_id == osid && a.date == d0) = true
      · simp [Function.comp, hpa]
      · simp [Function.comp, hpa]
    rw [hcong]
    have hid : ∀ a ∈ List.filter
        (fun a : AttendanceMark => a.student_id == sid && a.date == d)
        db.attendance,
        (if (a.student_id == osid && a.date == d0) = true then
          { a with status := st, timestamp := ts } else a) = a := by
      intro a ha
      have hpa : (a.student_id == sid && a.date == d) = true :=
        (List.mem_filter.mp ha).2
      have h1 : a.student_id = sid := by
        have h12 : a.student_id = sid ∧ a.date = d := by simpa using hpa
        exact h12.1
      have hno : (a.student_id == osid && a.date == d0) ≠ true := by
        intro hc
        have h34 : a.student_id = osid ∧ a.date = d0 := by simpa using hc
        exact h (h1 ▸ h34.1)
      simp [hno]
    calc List.map _ (List.filter
          (fun a : AttendanceMark => a.student_id == sid && a.date == d)
          db.attendance)
        = List.map id (List.filter
            (fun a : AttendanceMark => a.student_id == sid && a.date == d)
            db.attendance) := List.map_congr_left hid
      _ = _ := List.map_id _
  · have hb : (db.attendance.any fun a => a.student_id == osid && a.date == d0)
        = false := by simpa using hex
    simp only [upsertMark, hb, Bool.false_eq_true, if_false, attFor,
      List.filter_append]
    have hnew : List.filter (fun a : AttendanceMark =>
        a.student_id == sid && a.date == d)
        [{ id := db.next_attendance_id, student_id := osid, date := d0
           status := st, timestamp := ts }] = [] := by
      simp
      intro hc
      exact absurd hc.symm h
    rw [hnew, List.append_nil]

/-- Every attendance row present after one upsert was either already stored
or carries the supplied timestamp. -/
theorem upsertMark_timestamp (db : DB) (sid : Nat) (d st ts : String) :
    ∀ a ∈ (upsertMark db sid d st ts).attendance,
      a ∈ db.attendance ∨ a.timestamp = ts := by
  intro a ha
  by_cases hex :
      (db.attendance.any fun a => a.student_id == sid && a.date == d) = true
  · simp only [upsertMark, hex, if_true] at ha
    rcases List.mem_map.mp ha with ⟨b, hb, hfb⟩
    by_cases hpb : (b.student_id == sid && b.date == d) = true
    · right
      rw [← hfb]
      simp [hpb]
    · left
      rw [← hfb]
      simp only [hpb, if_false]
      simpa [hpb] using hb
  · have hb : (db.attendance.any fun a => a.student_id == sid && a.date == d)
        = false := by simpa using hex
    simp only [upsertMark, hb, Bool.false_eq_true, if_false] at ha
    rcases List.mem_append.mp ha with hmem | hmem
    · exact Or.inl hmem
    · right
      have : a = { id := db.next_attendance_id, student_id := sid, date := d
                   status := st, timestamp := ts } := by simpa using hmem
      rw [this]

/-- Marking a batch never creates or modifies a row of a student whose id is
not a key of the batch. -/
theorem mark_frame_aux (m : List (Nat × String)) (db : DB) (d ts : String)
    (sid : Nat) (d2 : String) (h : ∀ q ∈ m, q.1 ≠ sid) :
    attFor (mark_attendance_for_date db m d ts).1 sid d2
      = attFor db sid d2 := by
  induction m generalizing db with
  | nil => rfl
  | cons q rest ih =>
    have hstep : (mark_attendance_for_date db (q :: rest) d ts).1
        = (mark_attendance_for_date (upsertMark db q.1 d q.2 ts) rest d ts).1 :=
      rfl
    rw [hstep,
      ih (upsertMark db q.1 d q.2 ts) (fun p hp => h p (List.mem_cons_of_mem q hp)),
      upsertMark_attFor_other db q.1 d q.2 ts sid d2
        (fun hc => h q (List.mem_cons_self q rest) hc.symm)]

/-!  ### Claim theorems  -/

/-- C1: marking attendance for a `(studentId, date)` pair that already has a
row (at most one, per the `UNIQUE(student_id, date)` constraint) leaves
exactly one `AttendanceMark` row for that pair, holding the newly supplied
status and the new call's timestamp; marking the same pair twice with
different statuses leaves one row with the latest status and the second
call's timestamp, never a duplicate row. -/
theorem mark_upsert_overwrites (db : DB) (sid : Nat) (d s1 s2 ts1 ts2 : String)
    (h : (attFor db sid d).length ≤ 1) :
    (∃ i, attFor (mark_attendance_for_date db [(sid, s1)] d ts1).1 sid d
        = [{ id := i, student_id := sid, date := d, status := s1
             timestamp := ts1 }]) ∧
    (∃ j, attFor (mark_attendance_for_date
          (mark_attendance_for_date db [(sid, s1)] d ts1).1
          [(sid, s2)] d ts2).1 sid d
        = [{ id := j, student_id := sid, date := d, status := s2
             timestamp := ts2 }]) := by
  have hm1 : (mark_attendance_for_date db [(sid, s1)] d ts1).1
      = upsertMark db sid d s1 ts1 := rfl
  obtain ⟨i, hi⟩ := upsertMark_attFor db sid d s1 ts1 h
  have hlen : (attFor (upsertMark db sid d s1 ts1) sid d).length ≤ 1 := by
    rw [hi]; simp
  obtain ⟨j, hj⟩ :=
    upsertMark_attFor (upsertMark db sid d s1 ts1) sid d s2 ts2 hlen
  exact ⟨⟨i, by rw [hm1]; exact hi⟩, ⟨j, by rw [hm1]; exact hj⟩⟩

/-- Witness for C1 at the freshly initialised store, student 1,
date 2024-01-01. -/
theorem mark_upsert_overwrites_witness :
    (attFor emptyDB 1 "2024-01-01").length ≤ 1 ∧
    ((∃ i, attFor
        (mark_attendance_for_date emptyDB [(1, "Present")] "2024-01-01" "T1").1
        1 "2024-01-01"
        = [{ id := i, student_id := 1, date := "2024-01-01"
             status := "Present", timestamp := "T1" }]) ∧
     (∃ j, attFor (mark_attendance_for_date
          (mark_attendance_for_date emptyDB [(1, "Present")] "2024-01-01" "T1").1
          [(1, "Absent")] "2024-01-01" "T2").1 1 "2024-01-01"
        = [{ id := j, student_id := 1, date := "2024-01-01"
             status := "Absent", timestamp := "T2" }])) :=
  ⟨by decide,
   mark_upsert_overwrites emptyDB 1 "2024-01-01" "Present" "Absent" "T1" "T2"
     (by decide)⟩

/-- C5: a student id that is not a key of the batch mapping has its
attendance record for the given date (indeed for any date) neither created
nor modified by `mark_attendance_for_date`. -/
theorem mark_leaves_unlisted_students_untouched (db : DB)
    (m : List (Nat × String)) (d ts : String) (sid : Nat) (d2 : String)
    (h : ∀ q ∈ m, q.1 ≠ sid) :
    attFor (mark_attendance_for_date db m d ts).1 sid d2
      = attFor db sid d2 :=
  mark_frame_aux m db d ts sid d2 h

/-- Witness for C5: the batch {1 → Present, 2 → Absent} over the store with
students 1, 2, 3 leaves student 3 with no record for the date; the statuses
written for 1 and 2 are checked directly. -/
theorem mark_leaves_unlisted_students_untouched_witness :
    (attFor (mark_attendance_for_date abcDB [(1, "Present"), (2, "Absent")]
        "2024-01-01" "T").1 3 "2024-01-01"
      = attFor abcDB 3 "2024-01-01") ∧
    attFor abcDB 3 "2024-01-01" = [] ∧
    attFor (mark_attendance_for_date abcDB [(1, "Present"), (2, "Absent")]
        "2024-01-01" "T").1 1 "2024-01-01"
      = [{ id := 1, student_id := 1, date := "2024-01-01"
           status := "Present", timestamp := "T" }] ∧
    attFor (mark_attendance_for_date abcDB [(1, "Present"), (2, "Absent")]
        "2024-01-01" "T").1 2 "2024-01-01"
      = [{ id := 2, student_id := 2, date := "2024-01-01"
           status := "Absent", timestamp := "T" }] :=
  ⟨mark_leaves_unlisted_students_untouched abcDB [(1, "Present"), (2, "Absent")]
      "2024-01-01" "T" 3 "2024-01-01" (by decide),
   by decide, by decide, by decide⟩

/-- C9: the timestamp is computed once before the loop, so every row the call
inserts or overwrites carries that same timestamp (every row after the call
is either an untouched pre-existing row or has the call's timestamp), and
the call returns `True` unconditionally once all statements complete. -/
theorem mark_single_timestamp (db : DB) (m : List (Nat × String))
    (d ts : String) :
    (mark_attendance_for_date db m d ts).2 = true ∧
    ∀ a ∈ (mark_attendance_for_date db m d ts).1.attendance,
      a ∈ db.attendance ∨ a.timestamp = ts := by
  refine ⟨rfl, ?_⟩
  induction m generalizing db with
  | nil => intro a ha; exact Or.inl ha
  | cons q rest ih =>
    intro a ha
    have hstep : (mark_attendance_for_date db (q :: rest) d ts).1
        = (mark_attendance_for_date (upsertMark db q.1 d q.2 ts) rest d ts).1 :=
      rfl
    rw [hstep] at ha
    rcases ih (upsertMark db q.1 d q.2 ts) a ha with hmem | hts
    · exact upsertMark_timestamp db q.1 d q.2 ts a hmem
    · exact Or.inr hts

/-- Witness for C9: the batch {1 → Present, 2 → Absent} against the store
with students 1, 2, 3; the call returns `True` and the row stored for
student 1 satisfies the disjunction. -/
theorem mark_single_timestamp_witness :
    (mark_attendance_for_date abcDB [(1, "Present"), (2, "Absent")]
        "2024-01-01" "T").2 = true ∧
    ({ id := 1, student_id := 1, date := "2024-01-01", status := "Present"
       timestamp := "T" } ∈ abcDB.attendance ∨
     ({ id := 1, student_id := 1, date := "2024-01-01", status := "Present"
        timestamp := "T" } : AttendanceMark).timestamp = "T") :=
  ⟨(mark_single_timestamp abcDB [(1, "Present"), (2, "Absent")]
      "2024-01-01" "T").1,
   (mark_single_timestamp abcDB [(1, "Present"), (2, "Absent")]
      "2024-01-01" "T").2
     { id := 1, student_id := 1, date := "2024-01-01", status := "Present"
       timestamp := "T" } (by decide)⟩

/-- C2: each add operation, when its insert violates the relevant uniqueness
constraint, returns `false` (no exception) and leaves the store completely
unchanged — every table keeps its rows, no partial row is left behind. -/
theorem add_ops_duplicate_returns_false (db : DB) :
    (∀ name, db.colleges.any (fun c => c.name == pyStrip name) = true →
      add_college db name = (db, false)) ∧
    (∀ cid name, db.departments.any
        (fun d2 => d2.college_id == cid && d2.name == pyStrip name) = true →
      add_department db cid name = (db, false)) ∧
    (∀ did name, db.courses.any
        (fun c => c.department_id == did && c.name == pyStrip name) = true →
      add_course db did name = (db, false)) ∧
    (∀ cid name roll v, storedRoll roll = some v →
      db.students.any
        (fun s => s.course_id == cid && s.roll == some v) = true →
      add_student db cid name roll = (db, false)) := by
  refine ⟨?_, ?_, ?_, ?_⟩
  · intro name h
    simp [add_college, h]
  · intro cid name h
    simp [add_department, h]
  · intro did name h
    simp [add_course, h]
  · intro cid name roll v hr h
    simp [add_student, hr, h]

/-- Witness for C2 on `sampleDB`: re-adding the existing college, the
existing department, the existing course, and a student with the already
used roll "7" each return `false` with the store unchanged. -/
theorem add_ops_duplicate_returns_false_witness :
    add_college sampleDB "Uni" = (sampleDB, false) ∧
    add_department sampleDB 1 "CS" = (sampleDB, false) ∧
    add_course sampleDB 1 "Algo" = (sampleDB, false) ∧
    add_student sampleDB 1 "Tess" (some "7") = (sampleDB, false) :=
  ⟨(add_ops_duplicate_returns_false sampleDB).1 "Uni" (by decide),
   (add_ops_duplicate_returns_false sampleDB).2.1 1 "CS" (by decide),
   (add_ops_duplicate_returns_false sampleDB).2.2.1 1 "Algo" (by decide),
   (add_ops_duplicate_returns_false sampleDB).2.2.2 1 "Tess" (some "7") "7"
     (by decide) (by decide)⟩

/-- C3 (code observation): on the connections `get_conn` actually produces,
foreign keys are not enforced, so an insert whose parent id does not exist
is accepted: the add operations return `true` and store the orphan row, and
the attendance upsert stores a mark for a non-existent student. -/
theorem orphan_inserts_accepted :
    add_department emptyDB 999 "Physics"
      = ({ emptyDB with
            departments := [⟨1, 999, "Physics"⟩]
            next_department_id := 2 }, true) ∧
    add_course emptyDB 999 "Algo"
      = ({ emptyDB with
            courses := [⟨1, 999, "Algo"⟩]
            next_course_id := 2 }, true) ∧
    add_student emptyDB 999 "Ann" none
      = ({ emptyDB with
            students := [⟨1, 999, none, "Ann"⟩]
            next_student_id := 2 }, true) ∧
    (mark_attendance_for_date emptyDB [(999, "Present")] "2024-01-01" "T")
      = ({ emptyDB with
            attendance := [⟨1, 999, "2024-01-01", "Present", "T"⟩],
            next_attendance_id := 2 }, true) := by
  decide

/-- C4 (code observation): on the connections `get_conn` actually produces,
foreign keys are not enforced and SQLite ignores the schema's
`ON DELETE CASCADE` actions, so deleting a college removes only the college
row: its department, course, student and attendance rows all remain. -/
theorem delete_college_leaves_descendants :
    delete_college cascadeDB 1
      = { cascadeDB with colleges := [] } := by
  decide

/-- C8: `get_attendance_df` never propagates an error: a failed read or a
malformed filter (the `Except.error` case of the spliced clause) yields the
empty table, and a well-formed filter matching no row of the join also
yields the empty table. -/
theorem get_attendance_df_never_raises (db : DB) :
    (∀ e, get_attendance_df db (Except.error e) = []) ∧
    (∀ p : FlatRow → Bool, (∀ r ∈ joinAll db, p r = false) →
      get_attendance_df db (Except.ok p) = []) := by
  constructor
  · intro e
    rfl
  · intro p hp
    simp only [get_attendance_df]
    have hfil : (joinAll db).filter p = [] := by
      rw [List.filter_eq_nil_iff]
      intro a ha
      simp [hp a ha]
    rw [hfil]
    simp

/-- Witness for C8 on `cascadeDB` (which has one joinable attendance row):
an erroring read returns the empty table, and the all-rejecting filter
returns the empty table. -/
theorem get_attendance_df_never_raises_witness :
    get_attendance_df cascadeDB (Except.error "malformed filter") = [] ∧
    get_attendance_df cascadeDB (Except.ok (fun _ => false)) = [] :=
  ⟨(get_attendance_df_never_raises cascadeDB).1 "malformed filter",
   (get_attendance_df_never_raises cascadeDB).2 (fun _ => false) (by decide)⟩

/-- C10: `add_student` with a `None` or empty-string roll stores a `NULL`
roll and returns `true` against every store — the `UNIQUE(course_id, roll)`
constraint never applies to `NULL` rolls, so any number of such students can
be added to the same course. -/
theorem add_student_null_roll (db : DB) (cid : Nat) (nm : String) :
    add_student db cid nm none
      = ({ db with
            students := db.students
              ++ [⟨db.next_student_id, cid, none, pyStrip nm⟩],
            next_student_id := db.next_student_id + 1 }, true) ∧
    add_student db cid nm (some "")
      = ({ db with
            students := db.students
              ++ [⟨db.next_student_id, cid, none, pyStrip nm⟩],
            next_student_id := db.next_student_id + 1 }, true) := by
  constructor <;> simp [add_student, storedRoll, foreign_keys_enabled]

/-! ### Lemmas about the weekly-summary aggregation -/

/-- Membership in `dedupSeen`: an element survives iff it occurs in the list
and was not already seen. -/
theorem mem_dedupSeen (l : List (String × Option String)) :
    ∀ seen x, x ∈ dedupSeen seen l ↔ x ∈ l ∧ x ∉ seen := by
  induction l with
  | nil => intro seen x; simp [dedupSeen]
  | cons a as ih =>
    intro seen x
    by_cases ha : a ∈ seen
    · rw [show dedupSeen seen (a :: as) = dedupSeen seen as by
        simp [dedupSeen, ha]]
      rw [ih seen x]
      constructor
      · rintro ⟨hx, hns⟩
        exact ⟨List.mem_cons_of_mem a hx, hns⟩
      · rintro ⟨hx, hns⟩
        rcases List.mem_cons.mp hx with rfl | hx
        · exact absurd ha hns
        · exact ⟨hx, hns⟩
    · rw [show dedupSeen seen (a :: as) = a :: dedupSeen (a :: seen) as by
        simp [dedupSeen, ha]]
      constructor
      · intro hx
        rcases List.mem_cons.mp hx with rfl | hx
        · exact ⟨List.mem_cons_self x as, ha⟩
        · have := (ih (a :: seen) x).mp hx
          refine ⟨List.mem_cons_of_mem a this.1, fun hc => this.2 ?_⟩
          exact List.mem_cons_of_mem a hc
      · rintro ⟨hx, hns⟩
        rcases List.mem_cons.mp hx with rfl | hx
        · exact List.mem_cons_self x _
        · by_cases hxa : x = a
          · subst hxa; exact List.mem_cons_self x _
          · refine List.mem_cons_of_mem a ((ih (a :: seen) x).mpr ⟨hx, ?_⟩)
            intro hc
            rcases List.mem_cons.mp hc with h1 | h1
            · exact hxa h1
            · exact hns h1

/-- `dedupFirst` keeps exactly the elements of the list. -/
theorem mem_dedupFirst (l : List (String × Option String))
    (x : String × Option String) : x ∈ dedupFirst l ↔ x ∈ l := by
  rw [dedupFirst, mem_dedupSeen l [] x]
  simp

/-- `dedupSeen` produces a list without duplicates. -/
theorem nodup_dedupSeen (l : List (String × Option String)) :
    ∀ seen, (dedupSeen seen l).Nodup := by
  induction l with
  | nil => intro seen; simp [dedupSeen]
  | cons a as ih =>
    intro seen
    by_cases ha : a ∈ seen
    · rw [show dedupSeen seen (a :: as) = dedupSeen seen as by
        simp [dedupSeen, ha]]
      exact ih seen
    · rw [show dedupSeen seen (a :: as) = a :: dedupSeen (a :: seen) as by
        simp [dedupSeen, ha]]
      refine List.nodup_cons.mpr ⟨?_, ih (a :: seen)⟩
      intro hc
      exact ((mem_dedupSeen as (a :: seen) a).mp hc).2 (List.mem_cons_self a _)

/-- `dedupFirst` produces a list without duplicates. -/
theorem nodup_dedupFirst (l : List (String × Option String)) :
    (dedupFirst l).Nodup :=
  nodup_dedupSeen l []

/-- Looking a key up in an association list that tabulates a function over a
key list yields the function's value iff the key occurs. -/
theorem lookup_tabulate (l : List (String × Option String))
    (f : String × Option String → Nat) (k : String × Option String) :
    (l.map (fun x => (x, f x))).lookup k
      = if k ∈ l then some (f k) else none := by
  induction l with
  | nil => simp [List.lookup]
  | cons a as ih =>
    by_cases hka : k = a
    · subst hka
      simp [List.lookup]
    · have hbeq : (k == a) = false := by simpa using hka
      simp only [List.map_cons, List.lookup, hbeq]
      rw [ih]
      by_cases hk : k ∈ as
      · simp [hk]
      · have hk2 : k ∉ a :: as := by
          simp [List.mem_cons, hka, hk]
        simp [hk, hk2]

/-- Counting a non-null key's rows among the Present-and-non-null-roll rows
is the same as counting its Present rows. -/
theorem filter_pres_key (rows : List WeekRow) (k : String × Option String)
    (v : String) (hk : k.2 = some v) :
    ((rows.filter (fun r => r.status == "Present" && r.roll.isSome)).filter
        (fun r => wkey r == k)).length
      = presentCountFor rows k := by
  rw [List.filter_filter, presentCountFor]
  congr 1
  apply List.filter_congr
  intro r _
  by_cases hw : (wkey r == k) = true
  · have hwe : wkey r = k := by simpa using hw
    have hroll : r.roll = some v := by
      have : r.roll = k.2 := congrArg Prod.snd hwe
      rw [this, hk]
    have hsome : r.roll.isSome = true := by simp [hroll]
    simp [hw, hsome]
  · have hw2 : (wkey r == k) = false := by simpa using hw
    simp [hw2]

/-- A non-null key absent from the Present keys has no Present rows. -/
theorem presentCountFor_eq_zero (rows : List WeekRow)
    (k : String × Option String) (v : String) (hk : k.2 = some v)
    (habs : k ∉ (rows.filter
        (fun r => r.status == "Present" && r.roll.isSome)).map wkey) :
    presentCountFor rows k = 0 := by
  rw [presentCountFor, List.length_eq_zero, List.filter_eq_nil_iff]
  intro r hr hc
  have hcp : r.status == "Present" ∧ wkey r = k := by simpa using hc
  have hroll : r.roll = some v := by
    have : r.roll = k.2 := congrArg Prod.snd hcp.2
    rw [this, hk]
  apply habs
  refine List.mem_map.mpr ⟨r, ?_, hcp.2⟩
  refine List.mem_filter.mpr ⟨hr, ?_⟩
  simp [hcp.1, hroll]

/-- The `PresentCount` value `merged` carries for key `k`: the number of `k`'s
Present rows when `k` has a non-null roll, and 0 (the `fillna(0)` default,
since `groupby` dropped the null-roll rows) when `k`'s roll is null. -/
theorem weekly_presentCount (rows : List WeekRow)
    (k : String × Option String) :
    ((presences rows).lookup k).getD 0
      = match k.2 with
        | none => 0
        | some _ => presentCountFor rows k := by
  have hlook : (presences rows).lookup k
      = if k ∈ dedupFirst ((rows.filter
            (fun r => r.status == "Present" && r.roll.isSome)).map wkey)
        then some (((rows.filter
            (fun r => r.status == "Present" && r.roll.isSome)).filter
            (fun r => wkey r == k)).length)
        else none := by
    have h := lookup_tabulate
      (dedupFirst ((rows.filter
          (fun r => r.status == "Present" && r.roll.isSome)).map wkey))
      (fun x => ((rows.filter
          (fun r => r.status == "Present" && r.roll.isSome)).filter
          (fun r => wkey r == x)).length) k
    simpa [presences] using h
  cases hk : k.2 with
  | none =>
    have habs : k ∉ dedupFirst ((rows.filter
        (fun r => r.status == "Present" && r.roll.isSome)).map wkey) := by
      intro hc
      have hmem := (mem_dedupFirst _ k).mp hc
      rcases List.mem_map.mp hmem with ⟨r, hr, hkey⟩
      have hsome : r.roll.isSome = true := by
        have := (List.mem_filter.mp hr).2
        simpa using ((Bool.and_eq_true _ _).mp this).2
      have hnone : r.roll = none := by
        have : r.roll = k.2 := congrArg Prod.snd hkey
        rw [this, hk]
      rw [hnone] at hsome
      exact Bool.noConfusion hsome
    rw [hlook, if_neg habs]
    rfl
  | some v =>
    by_cases hin : k ∈ dedupFirst ((rows.filter
        (fun r => r.status == "Present" && r.roll.isSome)).map wkey)
    · rw [hlook, if_pos hin]
      simpa using filter_pres_key rows k v hk
    · rw [hlook, if_neg hin]
      have habs : k ∉ (rows.filter
          (fun r => r.status == "Present" && r.roll.isSome)).map wkey := by
        intro hc
        exact hin ((mem_dedupFirst _ k).mpr hc)
      have := presentCountFor_eq_zero rows k v hk habs
      simp [this]

/-- C6: the weekly summary uses the single fixed denominator
`totalDays = (end - start).days + 1` for every listed student, each row's
`attendancePercent` is `round(presentCount / totalDays * 100, 2)`, and on the
7-day range with 3 Present days the summary row is
`presentCount = 3, totalDays = 7, attendancePercent = 42.86`. -/
theorem weekly_summary_uniform_denominator (rows : List WeekRow) (s e : Int) :
    ((weekly_summary rows s e).all (fun r =>
        r.totalDays == e - s + 1
        && r.attendancePercent
            == round2 ((r.presentCount : ℚ) / (r.totalDays : ℚ) * 100)))
      = true
    ∧ weekly_summary week7rows 1 7
        = [{ student_name := "A", roll := some "1", presentCount := 3
             totalDays := 7, attendancePercent := 4286 / 100 }] := by
  constructor
  · rw [List.all_eq_true]
    intro r hr
    simp only [weekly_summary, List.mem_map] at hr
    rcases hr with ⟨k, hk, rfl⟩
    simp
  · have hs : students_list week7rows = [("A", some "1")] := by decide
    have hpc : ((presences week7rows).lookup ("A", some "1")).getD 0 = 3 := by
      decide
    simp only [weekly_summary, hs, List.map_cons, List.map_nil, hpc]
    have htd : (7 : Int) - 1 + 1 = 7 := by decide
    rw [htd]
    have hfloor : ⌊((3 : Nat) : ℚ) / ((7 : Int) : ℚ) * 100 * 100⌋ = 4285 := by
      rw [Int.floor_eq_iff]
      norm_num
    simp only [round2, roundHalfEven, hfloor]
    norm_num

/-- C7 (amended): the weekly summary lists exactly the distinct
`(student name, roll)` pairs of the filtered raw rows, each exactly once
(students with no row in range are not listed); a pair with a non-null roll
carries `presentCount` = the number of its Present rows (0 when it has only
Absent rows), while a pair with a null roll always carries
`presentCount = 0`, because pandas `groupby` drops null group keys before
the merge and `fillna(0)` fills the gap. -/
theorem weekly_summary_listing (rows : List WeekRow) (s e : Int) :
    (weekly_summary rows s e).map (fun r => (r.student_name, r.roll))
        = students_list rows
    ∧ (students_list rows).Nodup
    ∧ (∀ k, k ∈ students_list rows ↔ k ∈ rows.map wkey)
    ∧ ((weekly_summary rows s e).all (fun r =>
        r.presentCount ==
          match r.roll with
          | none => 0
          | some _ => presentCountFor rows (r.student_name, r.roll)))
      = true := by
  refine ⟨?_, nodup_dedupFirst _, ?_, ?_⟩
  · simp only [weekly_summary, List.map_map]
    exact (List.map_congr_left (fun k _ => rfl)).trans (List.map_id _)
  · intro k
    exact mem_dedupFirst _ k
  · rw [List.all_eq_true]
    intro r hr
    simp only [weekly_summary, List.mem_map] at hr
    rcases hr with ⟨k, hk, rfl⟩
    simp only [beq_iff_eq]
    have h := weekly_presentCount rows k
    cases hkk : k.2 with
    | none =>
      rw [hkk] at h
      simpa [hkk] using h
    | some v =>
      rw [hkk] at h
      have hkey : (k.1, k.2) = k := rfl
      simp only [hkk] at hkey
      simpa [hkk, hkey] using h

/-- Counterexample to C7 as stated: a student whose roll is NULL and who has
one Present row in range is listed with `presentCount = 0`, not 1. -/
theorem weekly_summary_null_roll_cex :
    (weekly_summary [⟨"A", none, "Present"⟩] 1 7).map
        (fun r => (r.student_name, r.roll, r.presentCount))
      = [("A", none, 0)]
    ∧ presentCountFor [⟨"A", none, "Present"⟩] ("A", none) = 1 := by
  decide

end AttendTracker
